import Mathlib

/-!
Verification of the `acquisition` package of androidqf (acquisition.go)
against its natural-language specification.

The Go code is shallowly embedded: pure computations become Lean functions,
filesystem and device effects become explicit parameters (oracles for
`os.Mkdir` success, trees of directory entries for `filepath.Walk`, records
of adapter shell results), and fallible Go functions returning `error`
become `Except String` values.  Go strings are Lean `String`s; the Go
standard-library string helpers used by the code (`strings.Split`,
`strings.TrimSpace`, `strings.HasPrefix`, `strings.TrimPrefix`) are
themselves embedded below over `List Char` so that every definition is
executable by the kernel.
-/

/-- Go `strings.Split(s, sep)` for a one-character separator: the list of
substrings between consecutive occurrences of the separator.  Splitting the
empty string yields `[[]]`, and a trailing separator yields a trailing empty
segment, exactly as in Go. -/
def splitOnChar (sep : Char) : List Char → List (List Char)
  | [] => [[]]
  | c :: cs =>
    let rest := splitOnChar sep cs
    if c = sep then [] :: rest
    else
      match rest with
      | [] => [[c]]
      | r :: rs => (c :: r) :: rs

/-- Go `strings.Split(out, "\n")` as used at acquisition.go:124. -/
def goSplitLines (s : String) : List String :=
  (splitOnChar '\n' s.data).map String.mk

/-- Whitespace test of Go `unicode.IsSpace` restricted to the ASCII range
(space, tab, newline, carriage return, vertical tab, form feed); the shell
output parsed by the code only meets these. -/
def isSpaceChar (c : Char) : Bool :=
  c = ' ' || c = '\t' || c = '\n' || c = '\r' || c = '\x0b' || c = '\x0c'

/-- Go `strings.TrimSpace` (acquisition.go:125): surrounding whitespace
removed from both ends. -/
def goTrimSpace (s : String) : String :=
  String.mk (((s.data.dropWhile isSpaceChar).reverse.dropWhile isSpaceChar).reverse)

/-- Character-list core of Go `strings.HasPrefix`. -/
def hasPrefixChars : List Char → List Char → Bool
  | _, [] => true
  | [], _ :: _ => false
  | c :: cs, p :: ps => c = p && hasPrefixChars cs ps

/-- Go `strings.HasPrefix(s, p)` (acquisition.go:126). -/
def goHasPrefix (s p : String) : Bool :=
  hasPrefixChars s.data p.data

/-- Go `strings.TrimPrefix(s, p)` (acquisition.go:127): `s` without the
leading `p` when `p` is a prefix, otherwise `s` unchanged. -/
def goTrimPrefix (s p : String) : String :=
  if goHasPrefix s p then String.mk (s.data.drop p.data.length) else s

/-- The `TMPDIR` parsing loop of `GetSystemInformation`
(acquisition.go:123-132): every line of the environment dump is trimmed; on
each line carrying the prefix `TMPDIR=` the accumulator is overwritten with
the value after the prefix; if the accumulator ends empty the fixed fallback
`/data/local/tmp` is used. -/
def resolveTmpDir (out : String) : String :=
  let tmpFolder :=
    (goSplitLines out).foldl
      (fun tmpFolder line =>
        let line := goTrimSpace line
        if goHasPrefix line "TMPDIR=" then goTrimPrefix line "TMPDIR=" else tmpFolder)
      ""
  if tmpFolder = "" then "/data/local/tmp" else tmpFolder

/-- The trimmed lines of the dump that carry the `TMPDIR=` prefix, in order. -/
def tmpdirLines (out : String) : List String :=
  ((goSplitLines out).map goTrimSpace).filter (fun l => goHasPrefix l "TMPDIR=")

/-- Modelled from the spec: the claimed reading of the parser, which would
take the value after `TMPDIR=` on the FIRST matching trimmed line, with the
fixed fallback when no line matches or the value is empty.  Stated only to
be compared with `resolveTmpDir`, the embedding of the code. -/
def resolveTmpDirFirstMatch (out : String) : String :=
  match (tmpdirLines out).head? with
  | some l => if goTrimPrefix l "TMPDIR=" = "" then "/data/local/tmp" else goTrimPrefix l "TMPDIR="
  | none => "/data/local/tmp"

/-- The last-matching-line reading of the parser: the value after `TMPDIR=`
on the LAST matching trimmed line, with the fixed fallback when no line
matches or that value is empty. -/
def resolveTmpDirLastMatch (out : String) : String :=
  match (tmpdirLines out).getLast? with
  | some l => if goTrimPrefix l "TMPDIR=" = "" then "/data/local/tmp" else goTrimPrefix l "TMPDIR="
  | none => "/data/local/tmp"

deriving instance DecidableEq for Except

/-- Modelled from the spec: the transient device-adapter handle (`adb.ADB`,
a package of this repository that is not under src/).  Its contents are
opaque to the acquisition code; one identifying field stands for them. -/
structure ADB where
  serial : String
deriving DecidableEq

/-- Modelled from the spec: the provisioned remote-collector handle
(`adb.Collector`, not under src/); the spec treats it as an
optionally-present, serializable handle released on `Complete`. -/
structure Collector where
  remotePath : String
deriving DecidableEq

/-- The `Acquisition` struct (acquisition.go:26-37).  Field order and json
tags follow the source; `ADB` carries the json tag `"-"` and is the only
field excluded from serialization.  Go `time.Time` values are modelled as
`Nat` instants (the zero value is `0`); nilable pointers as `Option`. -/
structure Acquisition where
  uuid : String
  adb : Option ADB
  storagePath : String
  apksPath : String
  logsPath : String
  started : Nat
  completed : Nat
  collector : Option Collector
  tmpDir : String
  cpu : String
deriving DecidableEq

/-- The results the connected device's adapter returns to `initADB`
(acquisition.go:91-107): `adb.New()` and `ADB.GetState()`, each a value or
an error. -/
structure ADBEnv where
  connectResult : Except String ADB
  stateResult : Except String String

/-- Embedding of `initADB` (acquisition.go:91-107): bootstrap the adapter,
then query the device state; either failure is wrapped and returned. -/
def initADB (env : ADBEnv) : Except String ADB :=
  match env.connectResult with
  | Except.error e => Except.error ("failed to initialize adb: " ++ e)
  | Except.ok handle =>
    match env.stateResult with
    | Except.error e =>
      Except.error ("failed to get adb state (are you sure a device is connected?): " ++ e)
    | Except.ok _ => Except.ok handle

/-- Hexadecimal digit characters, lowercase, as Go's `encoding/hex` and the
uuid library print them. -/
def hexDigit (n : Nat) : Char :=
  "0123456789abcdef".data.getD (n % 16) '0'

/-- Modelled from the spec: the version nibble the go.uuid library's
`NewV4` forces into byte 6 of the random block, `(b & 0x0f) | 0x40`. -/
def setVersion4 (b : Nat) : Nat :=
  b % 16 + 64

/-- Modelled from the spec: the RFC-4122 variant bits `NewV4` forces into
byte 8 of the random block, `(b & 0x3f) | 0x80`. -/
def setVariantRFC4122 (b : Nat) : Nat :=
  b % 64 + 128

/-- Modelled from the spec: the 36 characters of `uuid.String()` for the 16
random bytes of a freshly generated version-4 UUID — two lowercase hex
digits per byte, dashes after bytes 3, 5, 7 and 9, the version nibble and
variant bits forced as `NewV4` does. -/
def uuidChars (bs : List Nat) : List Char :=
  [hexDigit (bs.getD 0 0 / 16), hexDigit (bs.getD 0 0),
   hexDigit (bs.getD 1 0 / 16), hexDigit (bs.getD 1 0),
   hexDigit (bs.getD 2 0 / 16), hexDigit (bs.getD 2 0),
   hexDigit (bs.getD 3 0 / 16), hexDigit (bs.getD 3 0), '-',
   hexDigit (bs.getD 4 0 / 16), hexDigit (bs.getD 4 0),
   hexDigit (bs.getD 5 0 / 16), hexDigit (bs.getD 5 0), '-',
   hexDigit (setVersion4 (bs.getD 6 0) / 16), hexDigit (setVersion4 (bs.getD 6 0)),
   hexDigit (bs.getD 7 0 / 16), hexDigit (bs.getD 7 0), '-',
   hexDigit (setVariantRFC4122 (bs.getD 8 0) / 16), hexDigit (setVariantRFC4122 (bs.getD 8 0)),
   hexDigit (bs.getD 9 0 / 16), hexDigit (bs.getD 9 0), '-',
   hexDigit (bs.getD 10 0 / 16), hexDigit (bs.getD 10 0),
   hexDigit (bs.getD 11 0 / 16), hexDigit (bs.getD 11 0),
   hexDigit (bs.getD 12 0 / 16), hexDigit (bs.getD 12 0),
   hexDigit (bs.getD 13 0 / 16), hexDigit (bs.getD 13 0),
   hexDigit (bs.getD 14 0 / 16), hexDigit (bs.getD 14 0),
   hexDigit (bs.getD 15 0 / 16), hexDigit (bs.getD 15 0)]

/-- The session id `uuid.NewV4().String()` assigns at acquisition.go:42-43,
as a function of the 16 random bytes drawn. -/
def uuidV4String (bs : List Nat) : String :=
  String.mk (uuidChars bs)

/-- Shape of a textual version-4 RFC-4122 UUID: 36 characters, dashes at
positions 8, 13, 18 and 23, the version character `4` at position 14 and a
variant character in `8`, `9`, `a`, `b` at position 19. -/
def uuidStringShape (s : String) : Prop :=
  s.data.length = 36 ∧
  s.data.get? 8 = some '-' ∧ s.data.get? 13 = some '-' ∧
  s.data.get? 18 = some '-' ∧ s.data.get? 23 = some '-' ∧
  s.data.get? 14 = some '4' ∧
  (s.data.get? 19 = some '8' ∨ s.data.get? 19 = some '9' ∨
   s.data.get? 19 = some 'a' ∨ s.data.get? 19 = some 'b')

/-- Embedding of `New` (acquisition.go:40-52): a fresh `Acquisition` gets a
version-4 UUID from the 16 random bytes `bs` and `started := now` (the UTC
instant of the call); `initADB` failing means an error and no Acquisition
(the Go function returns `nil` with the error).  Every other field keeps
the Go zero value. -/
def New (now : Nat) (bs : List Nat) (env : ADBEnv) : Except String Acquisition :=
  match initADB env with
  | Except.error e => Except.error ("failed to initialize adb: " ++ e)
  | Except.ok handle =>
    Except.ok (Acquisition.mk (uuidV4String bs) (some handle) "" "" "" now 0 none "" "")

/-- External side effects `Complete` fires (acquisition.go:84-88):
`Collector.Clean()` on the held handle and `assets.CleanAssets()`.  Errors
of either are swallowed — the events record only that the call happened. -/
inductive CleanupEvent where
  | collectorClean
  | cleanAssets
deriving DecidableEq

/-- Embedding of `Complete` (acquisition.go:81-89): overwrite `completed`
with the current UTC instant, release the collector when one is held, then
clean the asset cache.  The function is total and returns no error. -/
def Complete (now : Nat) (a : Acquisition) : Acquisition × List CleanupEvent :=
  ({ a with completed := now },
   (match a.collector with
    | some _ => [CleanupEvent.collectorClean]
    | none => []) ++ [CleanupEvent.cleanAssets])

/-- Go `filepath.Join(dir, name)` for the cleaned, nonempty components the
acquisition code joins: the separator between the two parts. -/
def joinPath (dir name : String) : String :=
  dir ++ "/" ++ name

/-- The results of the two `adb shell` round trips `GetSystemInformation`
issues (acquisition.go:111 and 119): `getprop ro.product.cpu.abi` and
`env`. -/
structure ShellEnv where
  getpropAbi : Except String String
  envDump : Except String String

/-- Embedding of `GetSystemInformation` (acquisition.go:109-136): store the
CPU ABI verbatim, then parse the environment dump with `resolveTmpDir`;
either shell round trip failing aborts with an error. -/
def GetSystemInformation (sh : ShellEnv) (a : Acquisition) : Except String Acquisition :=
  match sh.getpropAbi with
  | Except.error e => Except.error e
  | Except.ok abi =>
    match sh.envDump with
    | Except.error e => Except.error ("failed to run `adb shell env`: " ++ e)
    | Except.ok out =>
      Except.ok { a with cpu := abi, tmpDir := resolveTmpDir out }

/-- Embedding of `createFolders` (acquisition.go:138-158).  `mk` is the
`os.Mkdir` oracle: whether creating the given path succeeds (it fails when
the path exists or permissions forbid it).  The first component of the
result lists the directories created, in creation order; the second is the
acquisition with its path fields assigned (assignments happen before each
`Mkdir`, as in the source) together with `none`, or the failing path's
error.  `exeDir` stands for `saveRuntime.GetExecutableDirectory()`, the
running program's own directory. -/
def createFolders (mk : String → Bool) (exeDir : String) (a : Acquisition) :
    List String × Acquisition × Option String :=
  let storagePath := joinPath exeDir a.uuid
  let a1 := { a with storagePath := storagePath }
  if mk storagePath = false then ([], a1, some "mkdir storagePath failed") else
  let apksPath := joinPath storagePath "apks"
  let a2 := { a1 with apksPath := apksPath }
  if mk apksPath = false then ([storagePath], a2, some "mkdir apks failed") else
  let logsPath := joinPath storagePath "logs"
  let a3 := { a2 with logsPath := logsPath }
  if mk logsPath = false then ([storagePath, apksPath], a3, some "mkdir logs failed") else
  ([storagePath, apksPath, logsPath], a3, none)

/-- The serializable snapshot `json.MarshalIndent` takes of an Acquisition
in `StoreInfo` (acquisition.go:217): one field per exported struct field
with a json tag other than `"-"`, named by its tag.  `ADB` (tag `"-"`) has
no counterpart here. -/
structure AcquisitionSnapshot where
  uuid : String
  storage_path : String
  apks_path : String
  logs_path : String
  started : Nat
  completed : Nat
  collector : Option Collector
  tmp_dir : String
  cpu : String
deriving DecidableEq

/-- Serialization direction of `StoreInfo` (acquisition.go:214-232): the
snapshot of every tagged field; the adapter handle is dropped. -/
def marshalAcquisition (a : Acquisition) : AcquisitionSnapshot :=
  AcquisitionSnapshot.mk a.uuid a.storagePath a.apksPath a.logsPath
    a.started a.completed a.collector a.tmpDir a.cpu

/-- Deserialization of the stored snapshot back into an `Acquisition`: the
tagged fields are restored; `ADB`, absent from the serialized form, takes
the Go zero value `nil`. -/
def unmarshalAcquisition (s : AcquisitionSnapshot) : Acquisition :=
  Acquisition.mk s.uuid none s.storage_path s.apks_path s.logs_path
    s.started s.completed s.collector s.tmp_dir s.cpu

/-- One directory entry of the tree under `storagePath`, as
`filepath.Walk` presents it to the callback of `HashFiles`
(acquisition.go:189-209).  `file` covers every entry whose
`FileInfo.IsDir()` is false — the `regular` flag records whether it is a
regular file, a distinction the callback never inspects — with the bytes a
subsequent open-and-read yields (for a symlink, the target's bytes).
`dir` carries the entries walked inside it, in the traversal order
`filepath.Walk` uses.  `errEntry` is an entry whose `lstat` fails: the
callback receives the error as its `err` argument. -/
inductive Entry where
  | file (name : String) (regular : Bool) (content : List Nat)
  | dir (name : String) (entries : List Entry)
  | errEntry (name : String) (msg : String)

/-- The name under which an entry appears in its directory. -/
def entryName : Entry → String
  | Entry.file n _ _ => n
  | Entry.dir n _ => n
  | Entry.errEntry n _ => n

mutual

/-- The walk callback of `HashFiles` (acquisition.go:189-208) applied to
one entry at `dirPath`, together with `filepath.Walk`'s recursion.  `f` is
`hashes.FileSHA256`: the digest of the entry's bytes, or a read error.  An
`err` argument (an `errEntry`) is returned as is (line 190-192); a
directory yields no row and its entries are walked (line 194-196); any
other entry is hashed and one row `(path, digest)` is written (line
198-206), a digest failure aborting.  The result is the list of rows the
csv writer received before the walk of this entry finished or failed, and
the error the callback propagated, if any. -/
def walkOne (f : List Nat → Except String String) (dirPath : String) :
    Entry → List (String × String) × Option String
  | Entry.errEntry _ msg => ([], some msg)
  | Entry.file name _ content =>
    match f content with
    | Except.error msg => ([], some msg)
    | Except.ok digest => ([(joinPath dirPath name, digest)], none)
  | Entry.dir name entries => walkList f (joinPath dirPath name) entries

/-- `filepath.Walk` over the entries of one directory: entries are walked
in order; the first error a callback returns aborts the walk of every
remaining entry and propagates (the callback of `HashFiles` never returns
`filepath.SkipDir`). -/
def walkList (f : List Nat → Except String String) (dirPath : String) :
    List Entry → List (String × String) × Option String
  | [] => ([], none)
  | e :: es =>
    match walkOne f dirPath e with
    | (rows, some msg) => (rows, some msg)
    | (rows, none) =>
      let rest := walkList f dirPath es
      (rows ++ rest.1, rest.2)

end

mutual

/-- Every non-directory entry reachable from one entry, with its full path
and its bytes, in traversal order. -/
def filesOfEntry (dirPath : String) : Entry → List (String × List Nat)
  | Entry.file name _ content => [(joinPath dirPath name, content)]
  | Entry.dir name entries => filesOfList (joinPath dirPath name) entries
  | Entry.errEntry _ _ => []

/-- Every non-directory entry reachable from a list of entries, with full
paths and bytes, in traversal order. -/
def filesOfList (dirPath : String) : List Entry → List (String × List Nat)
  | [] => []
  | e :: es => filesOfEntry dirPath e ++ filesOfList dirPath es

end

/-- Effect of `os.Create(filepath.Join(a.StoragePath, "hashes.csv"))`
(acquisition.go:180) on the top-level entries of `storagePath`: the
manifest file exists, empty (created or truncated), before the walk
starts.  The walk reads it as empty because the csv writer buffers its
rows and flushes only after the walk (line 187); its position in the
traversal is immaterial to the claims proved here, so it is placed last. -/
def createManifestFile (es : List Entry) : List Entry :=
  es.filter (fun e => entryName e != "hashes.csv") ++ [Entry.file "hashes.csv" true []]

/-- Embedding of `HashFiles` (acquisition.go:177-212).  `createOk` is
whether `os.Create` of the manifest file succeeds; on failure the error is
returned (line 181-183).  Otherwise `filepath.Walk` runs over the tree
`es` of `storagePath` — which now holds the empty manifest file — and its
result is DISCARDED (`_ =` at line 189): the function returns the rows the
walk produced and success, whether or not the walk aborted on an error. -/
def HashFiles (f : List Nat → Except String String) (createOk : Bool)
    (storagePath : String) (es : List Entry) : Except String (List (String × String)) :=
  if createOk then
    Except.ok (walkList f storagePath (createManifestFile es)).1
  else
    Except.error "failed to create hashes.csv"

/-- A concrete stand-in digest function for witnesses: one decimal
character per input byte, never failing. -/
def demoDigest (content : List Nat) : Except String String :=
  Except.ok (String.mk (content.map (fun b => hexDigit (b % 10))))

/-- A concrete acquisition value for witnesses. -/
def demoAcq : Acquisition :=
  Acquisition.mk "u" none "" "" "" 0 0 none "" ""

/-- A shell environment for witnesses: a device answering both probes. -/
def demoShell : ShellEnv :=
  ShellEnv.mk (Except.ok "arm64-v8a") (Except.ok "TMPDIR=/a\nTMPDIR=/b")

/-- An adapter environment for witnesses: no device answers. -/
def demoADBBad : ADBEnv :=
  ADBEnv.mk (Except.error "no device") (Except.ok "device")

/-- An adapter environment for witnesses: a reachable device. -/
def demoADBGood : ADBEnv :=
  ADBEnv.mk (Except.ok (ADB.mk "emulator-5554")) (Except.ok "device")

lemma foldl_tmpdir_lastMatch (ls : List String) (acc : String) :
    ls.foldl
      (fun tmpFolder line =>
        let line := goTrimSpace line
        if goHasPrefix line "TMPDIR=" then goTrimPrefix line "TMPDIR=" else tmpFolder)
      acc =
    match ((ls.map goTrimSpace).filter (fun l => goHasPrefix l "TMPDIR=")).getLast? with
    | some l => goTrimPrefix l "TMPDIR="
    | none => acc := by
  induction ls generalizing acc with
  | nil => rfl
  | cons x xs ih =>
    simp only [List.foldl_cons, List.map_cons, List.filter_cons]
    by_cases hx : goHasPrefix (goTrimSpace x) "TMPDIR=" = true
    · simp only [hx, if_pos]
      rw [ih]
      cases hrest : (xs.map goTrimSpace).filter (fun l => goHasPrefix l "TMPDIR=") with
      | nil => simp
      | cons r rs =>
        cases hgl : (r :: rs).getLast? with
        | none => simp at hgl
        | some l => simp [List.getLast?_cons_cons, hgl]
    · simp only [Bool.not_eq_true] at hx
      simp only [hx]
      rw [ih]
      simp

lemma resolveTmpDir_eq_lastMatch (out : String) :
    resolveTmpDir out = resolveTmpDirLastMatch out := by
  unfold resolveTmpDir resolveTmpDirLastMatch
  rw [foldl_tmpdir_lastMatch]
  unfold tmpdirLines
  cases h : ((goSplitLines out).map goTrimSpace).filter (fun l => goHasPrefix l "TMPDIR=") with
  | nil => simp
  | cons r rs =>
    simp only [h]
    cases hl : (r :: rs).getLast? with
    | none => simp at hl
    | some l => simp


lemma walkList_cons (f : List Nat → Except String String) (p : String)
    (e : Entry) (es : List Entry) :
    walkList f p (e :: es) =
      match walkOne f p e with
      | (rows, some msg) => (rows, some msg)
      | (rows, none) => (rows ++ (walkList f p es).1, (walkList f p es).2) :=
  rfl

lemma walkList_append_error (f : List Nat → Except String String) (p : String)
    (es es2 : List Entry) (msg : String) (h : (walkList f p es).2 = some msg) :
    walkList f p (es ++ es2) = walkList f p es := by
  induction es with
  | nil => simp [walkList] at h
  | cons e es ih =>
    rw [walkList_cons f p e es] at h
    rw [List.cons_append, walkList_cons f p e (es ++ es2), walkList_cons f p e es]
    cases hw : walkOne f p e with
    | mk rows err =>
      rw [hw] at h
      cases err with
      | some m => rfl
      | none =>
        have h2 : (walkList f p es).2 = some msg := h
        show (rows ++ (walkList f p (es ++ es2)).1, (walkList f p (es ++ es2)).2) =
          (rows ++ (walkList f p es).1, (walkList f p es).2)
        rw [ih h2]

lemma walkList_append_ok (f : List Nat → Except String String) (p : String)
    (es es2 : List Entry) (h : (walkList f p es).2 = none) :
    walkList f p (es ++ es2) =
      ((walkList f p es).1 ++ (walkList f p es2).1, (walkList f p es2).2) := by
  induction es with
  | nil => simp [walkList]
  | cons e es ih =>
    rw [walkList_cons f p e es] at h
    rw [List.cons_append, walkList_cons f p e (es ++ es2), walkList_cons f p e es]
    cases hw : walkOne f p e with
    | mk rows err =>
      rw [hw] at h
      cases err with
      | some m => exact Option.noConfusion h
      | none =>
        have h2 : (walkList f p es).2 = none := h
        show (rows ++ (walkList f p (es ++ es2)).1, (walkList f p (es ++ es2)).2) =
          ((rows ++ (walkList f p es).1) ++ (walkList f p es2).1, (walkList f p es2).2)
        rw [ih h2, List.append_assoc]

mutual

theorem walkOne_rows (f : List Nat → Except String String) (p : String) (e : Entry)
    (h : (walkOne f p e).2 = none) :
    List.Forall₂ (fun pc row => row.1 = pc.1 ∧ f pc.2 = Except.ok row.2)
      (filesOfEntry p e) (walkOne f p e).1 :=
  match e with
  | Entry.errEntry n m => by simp [walkOne] at h
  | Entry.file n r c => by
    cases hf : f c with
    | error m => simp [walkOne, hf] at h
    | ok d =>
      simp only [walkOne, hf, filesOfEntry]
      exact List.Forall₂.cons ⟨rfl, hf⟩ List.Forall₂.nil
  | Entry.dir n es => by
    simp only [walkOne, filesOfEntry]
    exact walkList_rows f (joinPath p n) es (by simpa [walkOne] using h)

theorem walkList_rows (f : List Nat → Except String String) (p : String) (es : List Entry)
    (h : (walkList f p es).2 = none) :
    List.Forall₂ (fun pc row => row.1 = pc.1 ∧ f pc.2 = Except.ok row.2)
      (filesOfList p es) (walkList f p es).1 :=
  match es with
  | [] => by simp [walkList, filesOfList]
  | e :: es => by
    rw [walkList_cons f p e es] at h ⊢
    cases hw : walkOne f p e with
    | mk rows err =>
      rw [hw] at h
      cases err with
      | some m => exact Option.noConfusion h
      | none =>
        have h2 : (walkList f p es).2 = none := h
        show List.Forall₂ _ (filesOfList p (e :: es)) (rows ++ (walkList f p es).1)
        have h1 : (walkOne f p e).2 = none := by rw [hw]
        have h3 := walkOne_rows f p e h1
        rw [hw] at h3
        exact List.rel_append h3 (walkList_rows f p es h2)

end

lemma hexDigit_setVersion4 (b : Nat) : hexDigit (setVersion4 b / 16) = '4' := by
  have h : setVersion4 b / 16 = 4 := by unfold setVersion4; omega
  rw [h]
  decide

lemma hexDigit_setVariant (b : Nat) :
    hexDigit (setVariantRFC4122 b / 16) = '8' ∨ hexDigit (setVariantRFC4122 b / 16) = '9' ∨
    hexDigit (setVariantRFC4122 b / 16) = 'a' ∨ hexDigit (setVariantRFC4122 b / 16) = 'b' := by
  have h : setVariantRFC4122 b / 16 = 8 ∨ setVariantRFC4122 b / 16 = 9 ∨
      setVariantRFC4122 b / 16 = 10 ∨ setVariantRFC4122 b / 16 = 11 := by
    unfold setVariantRFC4122; omega
  rcases h with h | h | h | h
  · exact Or.inl (by rw [h]; decide)
  · exact Or.inr (Or.inl (by rw [h]; decide))
  · exact Or.inr (Or.inr (Or.inl (by rw [h]; decide)))
  · exact Or.inr (Or.inr (Or.inr (by rw [h]; decide)))

lemma uuidV4String_shape (bs : List Nat) : uuidStringShape (uuidV4String bs) := by
  refine ⟨rfl, rfl, rfl, rfl, rfl, ?_, ?_⟩
  · show some (hexDigit (setVersion4 (bs.getD 6 0) / 16)) = some '4'
    rw [hexDigit_setVersion4]
  · rcases hexDigit_setVariant (bs.getD 8 0) with h | h | h | h
    · exact Or.inl (by show some (hexDigit (setVariantRFC4122 (bs.getD 8 0) / 16)) = some '8'; rw [h])
    · exact Or.inr (Or.inl (by show some (hexDigit (setVariantRFC4122 (bs.getD 8 0) / 16)) = some '9'; rw [h]))
    · exact Or.inr (Or.inr (Or.inl (by show some (hexDigit (setVariantRFC4122 (bs.getD 8 0) / 16)) = some 'a'; rw [h])))
    · exact Or.inr (Or.inr (Or.inr (by show some (hexDigit (setVariantRFC4122 (bs.getD 8 0) / 16)) = some 'b'; rw [h])))

lemma uuidV4String_ne_empty (bs : List Nat) : uuidV4String bs ≠ "" := by
  intro h
  have h2 := congrArg String.data h
  simp [uuidV4String, uuidChars] at h2

/-- C1 — counterexample. A digest failure on the only file aborts the walk
(the walk's propagated error is `some "digest failure"`), yet `HashFiles`
returns success with the partial (here empty) row list: the claim that
`HashFiles` returns an error after any traversal or digest error is false. -/
theorem C1_counterexample :
    HashFiles (fun _ => Except.error "digest failure") true "/st" [Entry.file "a" true [0]] =
      Except.ok [] ∧
    (walkList (fun _ => Except.error "digest failure") "/st"
        (createManifestFile [Entry.file "a" true [0]])).2 = some "digest failure" := by
  decide

/-- C1 — amended. A traversal or digest error aborts the walk — no entry
after the failing one is hashed or recorded — but `HashFiles` discards the
walk's error (`_ = filepath.Walk` at acquisition.go:189) and returns
success whenever the manifest file could be created; it returns an error
exactly when `os.Create` of the manifest file fails. -/
theorem C1_hashfiles_swallows_walk_errors (f : List Nat → Except String String)
    (createOk : Bool) (sp : String) (es : List Entry) :
    ((HashFiles f createOk sp es).isOk = createOk) ∧
    (∀ es2 msg, (walkList f sp es).2 = some msg →
      walkList f sp (es ++ es2) = walkList f sp es) := by
  constructor
  · cases createOk <;> simp [HashFiles, Except.isOk, Except.toBool]
  · intro es2 msg h
    exact walkList_append_error f sp es es2 msg h

/-- C1 — witness: the amended theorem applied at a concrete failing digest
function and a concrete tree. -/
theorem C1_witness :
    (HashFiles (fun _ => Except.error "io") true "/st" [Entry.file "a" true [0]]).isOk = true ∧
    walkList (fun _ => Except.error "io") "/st"
        ([Entry.file "a" true [0]] ++ [Entry.file "b" true [1]]) =
      walkList (fun _ => Except.error "io") "/st" [Entry.file "a" true [0]] := by
  have h := C1_hashfiles_swallows_walk_errors (fun _ => Except.error "io") true "/st"
    [Entry.file "a" true [0]]
  exact ⟨h.1, h.2 [Entry.file "b" true [1]] "io" (by decide)⟩

/-- C2 — counterexample. A non-regular entry (`regular := false`, e.g. a
symlink) is NOT skipped: the walk callback only tests `IsDir()`, so the
entry is hashed and recorded, contradicting the claim that non-regular
entries are skipped. -/
theorem C2_counterexample :
    HashFiles demoDigest true "/st" [Entry.file "link" false [7]] =
      Except.ok [("/st/link", "7"), ("/st/hashes.csv", "")] := by
  decide

/-- C2 — amended. On a walk that finishes without error, the manifest rows
are in one-to-one order-preserving correspondence with ALL non-directory
entries under `storagePath` (each therefore recorded exactly once, with
digest equal to the hash of its bytes read at that moment, and no
directory recorded) — but non-regular non-directory entries are hashed and
recorded too, not skipped. -/
theorem C2_manifest_rows (f : List Nat → Except String String) (sp : String)
    (es : List Entry) (h : (walkList f sp (createManifestFile es)).2 = none) :
    ∃ rows, HashFiles f true sp es = Except.ok rows ∧
      List.Forall₂ (fun pc row => row.1 = pc.1 ∧ f pc.2 = Except.ok row.2)
        (filesOfList sp (createManifestFile es)) rows :=
  ⟨(walkList f sp (createManifestFile es)).1, rfl,
    walkList_rows f sp (createManifestFile es) h⟩

/-- C2 — witness: the amended theorem applied to a concrete tree with a
regular file, a directory and a non-regular entry. -/
theorem C2_witness :
    ∃ rows, HashFiles demoDigest true "/st"
        [Entry.file "z" true [3], Entry.dir "d" [Entry.file "b" false [4, 5]]] =
      Except.ok rows ∧
      List.Forall₂ (fun pc row => row.1 = pc.1 ∧ demoDigest pc.2 = Except.ok row.2)
        (filesOfList "/st" (createManifestFile
          [Entry.file "z" true [3], Entry.dir "d" [Entry.file "b" false [4, 5]]])) rows :=
  C2_manifest_rows demoDigest "/st"
    [Entry.file "z" true [3], Entry.dir "d" [Entry.file "b" false [4, 5]]] (by decide)

/-- C3 — counterexample. The manifest file is not excluded: `hashes.csv` is
created inside `storagePath` before the walk, the walk reaches it as an
ordinary non-directory entry, and a row for it is written — here the run
over a tree with one file `a` records `/st/hashes.csv` itself. -/
theorem C3_counterexample :
    HashFiles demoDigest true "/st" [Entry.file "a" true [1]] =
      Except.ok [("/st/a", "1"), ("/st/hashes.csv", "")] ∧
    ("/st/hashes.csv", "") ∈ [("/st/a", "1"), ("/st/hashes.csv", "")] := by
  decide

/-- C3 — amended. The walk of `HashFiles` does NOT exclude its own output
file: the manifest is created (empty) inside `storagePath` before the walk
begins, and on every walk that finishes without error the returned rows
contain a row for `hashes.csv` itself, whose digest is that of the bytes
the manifest file holds when the walk reaches it (empty while the csv
writer's buffer has not been flushed). -/
theorem C3_manifest_file_not_excluded (f : List Nat → Except String String)
    (sp : String) (es : List Entry) (d : String) (hd : f [] = Except.ok d)
    (h : (walkList f sp (createManifestFile es)).2 = none) :
    ∃ rows, HashFiles f true sp es = Except.ok rows ∧
      (joinPath sp "hashes.csv", d) ∈ rows := by
  refine ⟨(walkList f sp (createManifestFile es)).1, rfl, ?_⟩
  unfold createManifestFile at h ⊢
  cases hpre : (walkList f sp (es.filter (fun e => entryName e != "hashes.csv"))).2 with
  | some m =>
    rw [walkList_append_error f sp _ _ m hpre] at h
    rw [hpre] at h
    exact Option.noConfusion h
  | none =>
    rw [walkList_append_ok f sp _ _ hpre]
    have hw1 : walkList f sp [Entry.file "hashes.csv" true []] =
        ([(joinPath sp "hashes.csv", d)], none) := by
      simp [walkList, walkOne, hd]
    simp [hw1]

/-- C3 — witness: the amended theorem applied at a concrete digest function
and tree. -/
theorem C3_witness :
    ∃ rows, HashFiles demoDigest true "/st" [Entry.file "a" true [1]] = Except.ok rows ∧
      (joinPath "/st" "hashes.csv", "") ∈ rows :=
  C3_manifest_file_not_excluded demoDigest "/st" [Entry.file "a" true [1]] ""
    (by decide) (by decide)

/-- C4 — counterexample. With two matching lines the parser keeps the LAST
one, not the first: on `TMPDIR=/a\nTMPDIR=/b` the code resolves `/b`, while
the claimed first-matching-line reading resolves `/a`. -/
theorem C4_counterexample :
    resolveTmpDir "TMPDIR=/a\nTMPDIR=/b" = "/b" ∧
    resolveTmpDirFirstMatch "TMPDIR=/a\nTMPDIR=/b" = "/a" ∧
    ("/b" : String) ≠ "/a" := by
  decide

/-- C4 — amended. For every environment dump the adapter returns,
`GetSystemInformation` extracts the resolved temp directory from the value
following the `TMPDIR=` prefix on the LAST line (after per-line whitespace
trimming) that carries such a prefix, with the fixed fallback when no line
matches or the last match's value is empty. -/
theorem C4_tmpdir_from_last_match (sh : ShellEnv) (a : Acquisition) (abi out : String)
    (h1 : sh.getpropAbi = Except.ok abi) (h2 : sh.envDump = Except.ok out) :
    ∃ a2, GetSystemInformation sh a = Except.ok a2 ∧ a2.cpu = abi ∧
      a2.tmpDir = resolveTmpDirLastMatch out := by
  refine ⟨{ a with cpu := abi, tmpDir := resolveTmpDir out }, ?_, rfl,
    resolveTmpDir_eq_lastMatch out⟩
  unfold GetSystemInformation
  rw [h1, h2]

/-- C4 — witness: the amended theorem at a concrete shell environment whose
dump holds two `TMPDIR=` lines. -/
theorem C4_witness :
    ∃ a2, GetSystemInformation demoShell demoAcq = Except.ok a2 ∧
      a2.cpu = "arm64-v8a" ∧
      a2.tmpDir = resolveTmpDirLastMatch "TMPDIR=/a\nTMPDIR=/b" :=
  C4_tmpdir_from_last_match demoShell demoAcq "arm64-v8a" "TMPDIR=/a\nTMPDIR=/b" rfl rfl

/-- C5 — counterexample. A dump that contains the line `TMPDIR=/foo/bar`
but a later matching line resolves to the later value, not `/foo/bar`: the
claim's universal first half is false. -/
theorem C5_counterexample :
    "TMPDIR=/foo/bar" ∈ goSplitLines "TMPDIR=/foo/bar\nTMPDIR=/other" ∧
    resolveTmpDir "TMPDIR=/foo/bar\nTMPDIR=/other" = "/other" ∧
    ("/other" : String) ≠ "/foo/bar" := by
  decide

/-- C5 — amended. For every dump whose LAST trimmed `TMPDIR=`-prefixed line
is `TMPDIR=/foo/bar`, the resolved temp directory is `/foo/bar`; for every
dump with no `TMPDIR=`-prefixed line, or whose every such line carries an
empty value, the resolved temp directory is the fallback `/data/local/tmp`. -/
theorem C5_tmpdir_examples (out : String) :
    ((tmpdirLines out).getLast? = some "TMPDIR=/foo/bar" →
      resolveTmpDir out = "/foo/bar") ∧
    ((∀ l ∈ tmpdirLines out, l = "TMPDIR=") →
      resolveTmpDir out = "/data/local/tmp") := by
  constructor
  · intro h
    rw [resolveTmpDir_eq_lastMatch]
    unfold resolveTmpDirLastMatch
    rw [h]
    decide
  · intro hall
    rw [resolveTmpDir_eq_lastMatch]
    unfold resolveTmpDirLastMatch
    cases hgl : (tmpdirLines out).getLast? with
    | none => rfl
    | some l =>
      have hmem : l ∈ tmpdirLines out := by
        obtain ⟨hne, heq⟩ := List.mem_getLast?_eq_getLast
          (show l ∈ (tmpdirLines out).getLast? from hgl)
        rw [heq]
        exact List.getLast_mem hne
      rw [hall l hmem]
      decide

/-- C5 — witness: both halves of the theorem at concrete dumps. -/
theorem C5_witness :
    resolveTmpDir "x=1\nTMPDIR=/foo/bar" = "/foo/bar" ∧
    resolveTmpDir "x=1\ny=2" = "/data/local/tmp" := by
  constructor
  · exact (C5_tmpdir_examples "x=1\nTMPDIR=/foo/bar").1 (by decide)
  · exact (C5_tmpdir_examples "x=1\ny=2").2 (by decide)

/-- C6 — confirmed. `createFolders` attempts `storagePath`, then
`storagePath/apks`, then `storagePath/logs`, in exactly that order and no
other: the directories created form a prefix of that sequence, a directory
that was created stays created when a later creation fails (no rollback),
a fully successful run creates all three, and `storagePath` is derived as
the program's own directory joined with the session id. -/
theorem C6_createFolders_order (mk : String → Bool) (e : String) (a : Acquisition) :
    ((createFolders mk e a).1 = [] ∨
     (createFolders mk e a).1 = [joinPath e a.uuid] ∨
     (createFolders mk e a).1 = [joinPath e a.uuid, joinPath (joinPath e a.uuid) "apks"] ∨
     (createFolders mk e a).1 = [joinPath e a.uuid, joinPath (joinPath e a.uuid) "apks",
       joinPath (joinPath e a.uuid) "logs"]) ∧
    (mk (joinPath e a.uuid) = true → joinPath e a.uuid ∈ (createFolders mk e a).1) ∧
    (mk (joinPath e a.uuid) = true → mk (joinPath (joinPath e a.uuid) "apks") = true →
      joinPath (joinPath e a.uuid) "apks" ∈ (createFolders mk e a).1) ∧
    ((createFolders mk e a).2.2 = none →
      (createFolders mk e a).1 = [joinPath e a.uuid, joinPath (joinPath e a.uuid) "apks",
        joinPath (joinPath e a.uuid) "logs"]) ∧
    (createFolders mk e a).2.1.storagePath = joinPath e a.uuid := by
  cases h1 : mk (joinPath e a.uuid) <;>
    cases h2 : mk (joinPath (joinPath e a.uuid) "apks") <;>
      cases h3 : mk (joinPath (joinPath e a.uuid) "logs") <;>
        simp [createFolders, h1, h2, h3]

/-- C6 — witness: the theorem at a concrete oracle that fails exactly on
the logs directory — the two earlier directories are in the created list. -/
theorem C6_witness :
    joinPath "/exe" "u" ∈
      (createFolders (fun s => s != "/exe/u/logs") "/exe" demoAcq).1 ∧
    joinPath (joinPath "/exe" "u") "apks" ∈
      (createFolders (fun s => s != "/exe/u/logs") "/exe" demoAcq).1 ∧
    (createFolders (fun s => s != "/exe/u/logs") "/exe" demoAcq).2.2.isSome = true := by
  refine ⟨?_, ?_, by decide⟩
  · exact (C6_createFolders_order (fun s => s != "/exe/u/logs") "/exe" demoAcq).2.1 (by decide)
  · exact (C6_createFolders_order (fun s => s != "/exe/u/logs") "/exe" demoAcq).2.2.1
      (by decide) (by decide)

/-- C7 — confirmed. `New` with an unreachable device (adapter bootstrap or
state query failing) returns an error and no Acquisition; with a reachable
device it returns an Acquisition whose id is a non-empty version-4 UUID
string and whose `started` timestamp is the UTC instant of the call, hence
at most any current time observed from then on. -/
theorem C7_new_requires_device (env : ADBEnv) (now : Nat) (bs : List Nat) :
    ((env.connectResult.isOk = false ∨ env.stateResult.isOk = false) →
      ∃ msg, New now bs env = Except.error msg) ∧
    (∀ a, New now bs env = Except.ok a →
      a.uuid ≠ "" ∧ uuidStringShape a.uuid ∧ a.started = now ∧
        ∀ t, now ≤ t → a.started ≤ t) := by
  obtain ⟨c, st⟩ := env
  constructor
  · intro h
    cases c with
    | error e => exact ⟨_, rfl⟩
    | ok handle =>
      cases st with
      | error e => exact ⟨_, rfl⟩
      | ok s => simp [Except.isOk, Except.toBool] at h
  · intro a ha
    cases c with
    | error e => exact absurd ha (by simp [New, initADB])
    | ok handle =>
      cases st with
      | error e => exact absurd ha (by simp [New, initADB])
      | ok s =>
        have ha2 : Acquisition.mk (uuidV4String bs) (some handle) "" "" "" now 0 none "" "" = a := by
          have hstep := ha
          simp [New, initADB] at hstep
          exact hstep
        subst ha2
        exact ⟨uuidV4String_ne_empty bs, uuidV4String_shape bs, rfl, fun t ht => ht⟩

/-- C7 — witness: the theorem applied with no reachable device (an error,
discharging the first hypothesis) and with a reachable one (the returned
Acquisition's id is a non-empty v4 UUID and `started` is the call time). -/
theorem C7_witness :
    (∃ msg, New 5 [1, 2] demoADBBad = Except.error msg) ∧
    ((Acquisition.mk (uuidV4String [1, 2]) (some (ADB.mk "emulator-5554"))
        "" "" "" 5 0 none "" "").uuid ≠ "" ∧
      uuidStringShape (uuidV4String [1, 2])) := by
  constructor
  · exact (C7_new_requires_device demoADBBad 5 [1, 2]).1 (Or.inl rfl)
  · have h := (C7_new_requires_device demoADBGood 5 [1, 2]).2
      (Acquisition.mk (uuidV4String [1, 2]) (some (ADB.mk "emulator-5554"))
        "" "" "" 5 0 none "" "") rfl
    exact ⟨h.1, h.2.1⟩

/-- C8 — confirmed. `Complete` is total (it can raise no error by type):
every call overwrites `completed` with the current instant — a repeated
call overwrites it again, with no idempotence guard — the collector
release event fires exactly when a collector handle is present, the asset
cache cleanup always fires, and no other field of the acquisition changes. -/
theorem C8_complete_total (a : Acquisition) (now now2 : Nat) :
    (Complete now a).1.completed = now ∧
    (Complete now2 (Complete now a).1).1.completed = now2 ∧
    ((CleanupEvent.collectorClean ∈ (Complete now a).2) ↔ a.collector.isSome = true) ∧
    CleanupEvent.cleanAssets ∈ (Complete now a).2 ∧
    (Complete now a).1.uuid = a.uuid ∧
    (Complete now a).1.started = a.started ∧
    (Complete now a).1.collector = a.collector := by
  cases hc : a.collector <;> simp [Complete, hc]

/-- C9 — confirmed. The snapshot the metadata persister serializes excludes
the transient adapter handle (it is independent of the `adb` field), and a
serialize-then-deserialize round trip restores every field of the
Acquisition except that handle, which comes back as the zero value `none`. -/
theorem C9_snapshot_roundtrip (a : Acquisition) (h : Option ADB) :
    marshalAcquisition { a with adb := h } = marshalAcquisition a ∧
    unmarshalAcquisition (marshalAcquisition a) = { a with adb := none } :=
  ⟨rfl, rfl⟩

/-- C10 — confirmed. When the dump holds several `TMPDIR=`-prefixed lines,
the LAST matching trimmed line alone determines the result: the resolved
directory is its value, or the fallback when that value is empty — in
particular a trailing bare `TMPDIR=` line forces the fallback even after an
earlier non-empty value. -/
theorem C10_last_match_decides (out l : String)
    (h : (tmpdirLines out).getLast? = some l) :
    resolveTmpDir out =
      (if goTrimPrefix l "TMPDIR=" = "" then "/data/local/tmp"
       else goTrimPrefix l "TMPDIR=") := by
  rw [resolveTmpDir_eq_lastMatch]
  unfold resolveTmpDirLastMatch
  rw [h]

/-- C10 — witness: a non-empty `TMPDIR=/first` followed by a bare `TMPDIR=`
resolves to the fallback, not to `/first`. -/
theorem C10_witness :
    resolveTmpDir "TMPDIR=/first\nTMPDIR=" = "/data/local/tmp" :=
  (C10_last_match_decides "TMPDIR=/first\nTMPDIR=" "TMPDIR=" (by decide)).trans (by decide)
